import Mathlib

/-!
Verification of the policy-manager request-gating engine.

This file gives a shallow embedding, in Lean 4, of the core of the
`policy_manager` Python package: the `PolicyResult` value type, the
`RequestContext`, the key-value `Store`, the chain evaluator
(`PolicyManager.check_pre_exec_policies` / `check_post_exec_policies`),
the composite combinators (`AllOf`, `AnyOf`, `Not`), the representative
stateful policies (`RateLimitPolicy`, `AccessGroupPolicy`), the execution
bridge (`Executor.execute` / `Executor._execute_internal`) and the
`PolicyFactory`.

Modelling conventions:
* Python `async` methods are pure Lean functions; awaiting is sequencing.
* A policy's evaluation may mutate the request context and some ambient
  state (its store, test counters); it is embedded as a function
  `RequestContext → σ → PolicyResult × RequestContext × σ` for an explicit
  state type `σ`.
* JSON-object values held in `context.metadata` and in the store are
  modelled by the finitely many shapes the embedded code actually reads and
  writes (`MetaVal`, `StoreVal`); Python dicts become association lists
  whose `get`/`set` follow dict semantics (overwrite in place, append new
  keys at the end, preserving insertion order).
* Python exceptions become `Except` values (`PyExc`); a raised exception is
  an `Except.error`.
* Python `float` timestamps are modelled as `Int` seconds.
-/

namespace PMSpec

/-- Scalar/JSON-like values that the embedded code stores in
`context.metadata` and in `PolicyResult.metadata`: integers, strings and
lists of strings are the only shapes read or written by the code under
study. -/
inductive MetaVal where
  | mint (n : Int)
  | mstr (s : String)
  | mstrList (xs : List String)
deriving DecidableEq, Repr

/-- Python-dict lookup on an association list: first binding of the key. -/
def alistGet {β α : Type} [BEq β] (d : List (β × α)) (k : β) : Option α :=
  (d.find? (fun p => p.1 == k)).map Prod.snd

/-- Python `dict.get(k, default)`. -/
def alistGetD {β α : Type} [BEq β] (d : List (β × α)) (k : β) (v : α) : α :=
  (alistGet d k).getD v

/-- Python-dict update: overwrite the existing binding in place, otherwise
append a new binding at the end (dicts preserve insertion order). -/
def alistSet {β α : Type} [BEq β] (d : List (β × α)) (k : β) (v : α) :
    List (β × α) :=
  if d.any (fun p => p.1 == k) then
    d.map (fun p => if p.1 == k then (k, v) else p)
  else d ++ [(k, v)]

/-- Lexicographic comparison of character lists (code-point order, the
order Python uses on strings). -/
def charListLe : List Char → List Char → Bool
  | [], _ => true
  | _ :: _, [] => false
  | a :: as, b :: bs =>
    if a < b then true else if b < a then false else charListLe as bs

/-- `a <= b` on strings, as Python compares them. -/
def strLeB (a b : String) : Bool :=
  charListLe a.toList b.toList

/-- Insert into a sorted list of strings (ascending). -/
def insertSorted (x : String) : List String → List String
  | [] => [x]
  | y :: ys => if strLeB x y then x :: y :: ys else y :: insertSorted x ys

/-- Python's `sorted` on a list of strings, modelled as insertion sort
(same output: the ascending reordering; ties are identical strings). -/
def sortStrings (xs : List String) : List String :=
  xs.foldr insertSorted []

/-- `context.py`: `RequestContext` — the mutable data object that flows
through the policy chain.  `timestamp` is the creation time (seconds). -/
structure RequestContext where
  user_id : String
  input : List (String × MetaVal) := []
  output : List (String × MetaVal) := []
  metadata : List (String × MetaVal) := []
  timestamp : Int := 0
deriving DecidableEq, Repr

/-- `result.py`: `PolicyResult` — immutable result of a policy evaluation.
The Python class is a frozen dataclass with these defaults and **no**
validation in its constructor. -/
structure PolicyResult where
  allowed : Bool
  policy_name : String := ""
  reason : String := ""
  pending : Bool := false
  metadata : List (String × MetaVal) := []
deriving DecidableEq, Repr

/-- `PolicyResult.allow` factory helper. -/
def PolicyResult.allow (policy_name : String := "") : PolicyResult :=
  { allowed := true, policy_name := policy_name }

/-- `PolicyResult.deny` factory helper (`**meta` kwargs become the
metadata association list). -/
def PolicyResult.deny (policy_name : String) (reason : String)
    (meta : List (String × MetaVal) := []) : PolicyResult :=
  { allowed := false, policy_name := policy_name, reason := reason,
    metadata := meta }

/-- `PolicyResult.pend` factory helper. -/
def PolicyResult.pend (policy_name : String) (reason : String := "")
    (meta : List (String × MetaVal) := []) : PolicyResult :=
  { allowed := false, pending := true, policy_name := policy_name,
    reason := reason, metadata := meta }

/-- Store values: the JSON objects the embedded policies persist — the rate
limiter's per-user `{"timestamps": [...]}` and the access group's
`"_config"` object. -/
inductive StoreVal where
  | timestamps (ts : List Int)
  | agConfig (owner : String) (users : List String) (documents : List String)
deriving DecidableEq, Repr

/-- `stores/memory.py`: the in-memory store is a map from
`(namespace, key)` to a JSON object, modelled as an association list with
last-write-wins `set`. -/
abbrev Store := List ((String × String) × StoreVal)

/-- `InMemoryStore.get`: the stored value, or `none`. -/
def storeGet (s : Store) (ns k : String) : Option StoreVal :=
  alistGet s (ns, k)

/-- `InMemoryStore.set`: overwrite or insert (last write wins). -/
def storeSet (s : Store) (ns k : String) (v : StoreVal) : Store :=
  alistSet s (ns, k) v

/-- A registered policy as the chain evaluator and the composite
combinators see it: a `pre_execute` and a `post_execute` method, each
possibly mutating the context and some ambient state of type `σ` (the
policy's store, side-effect counters in tests, ...). -/
structure PolicyI (σ : Type) where
  pre : RequestContext → σ → PolicyResult × RequestContext × σ
  post : RequestContext → σ → PolicyResult × RequestContext × σ

/-- `manager.py`, `PolicyManager.check_pre_exec_policies`: run every
policy's `pre_execute` in registration order; the first result with
`allowed = false` stops the chain and is returned; if all pass, return
`PolicyResult.allow()` (empty policy name). -/
def check_pre_exec_policies {σ : Type} :
    List (PolicyI σ) → RequestContext → σ → PolicyResult × RequestContext × σ
  | [], ctx, s => (PolicyResult.allow, ctx, s)
  | p :: ps, ctx, s =>
    let r := p.pre ctx s
    if r.1.allowed then check_pre_exec_policies ps r.2.1 r.2.2
    else r

/-- `manager.py`, `PolicyManager.check_post_exec_policies`: same
short-circuit loop over `post_execute`. -/
def check_post_exec_policies {σ : Type} :
    List (PolicyI σ) → RequestContext → σ → PolicyResult × RequestContext × σ
  | [], ctx, s => (PolicyResult.allow, ctx, s)
  | p :: ps, ctx, s =>
    let r := p.post ctx s
    if r.1.allowed then check_post_exec_policies ps r.2.1 r.2.2
    else r

/-- `composite.py`, `AllOf.pre_execute`: delegate to the children's
`pre_execute` in order; the first non-allowed child result is returned
unchanged (remaining children are not evaluated); if all allow, return
`PolicyResult.allow(self.name)`. -/
def AllOf.pre_execute {σ : Type} (name : String) :
    List (PolicyI σ) → RequestContext → σ → PolicyResult × RequestContext × σ
  | [], ctx, s => (PolicyResult.allow name, ctx, s)
  | p :: ps, ctx, s =>
    let r := p.pre ctx s
    if r.1.allowed then AllOf.pre_execute name ps r.2.1 r.2.2
    else r

/-- `composite.py`, `AllOf.post_execute`: same loop over `post_execute`. -/
def AllOf.post_execute {σ : Type} (name : String) :
    List (PolicyI σ) → RequestContext → σ → PolicyResult × RequestContext × σ
  | [], ctx, s => (PolicyResult.allow name, ctx, s)
  | p :: ps, ctx, s =>
    let r := p.post ctx s
    if r.1.allowed then AllOf.post_execute name ps r.2.1 r.2.2
    else r

/-- `composite.py`, `AnyOf._evaluate`: evaluate children in order with the
phase method selected by `method`; return `PolicyResult.allow(self.name)`
on the first child that allows; otherwise remember the child's result as
`last_denial` and continue; when the children are exhausted return
`last_denial`, or — when there never was a child — the composite's own
denial "No child policies configured". -/
def AnyOf.evaluate {σ : Type} (name : String)
    (method : PolicyI σ → RequestContext → σ → PolicyResult × RequestContext × σ)
    (last_denial : Option PolicyResult) :
    List (PolicyI σ) → RequestContext → σ → PolicyResult × RequestContext × σ
  | [], ctx, s =>
    (last_denial.getD (PolicyResult.deny name "No child policies configured"),
      ctx, s)
  | p :: ps, ctx, s =>
    let r := method p ctx s
    if r.1.allowed then (PolicyResult.allow name, r.2.1, r.2.2)
    else AnyOf.evaluate name method (some r.1) ps r.2.1 r.2.2

/-- `AnyOf.pre_execute` = `self._evaluate(context, "pre_execute")`. -/
def AnyOf.pre_execute {σ : Type} (name : String) (children : List (PolicyI σ)) :
    RequestContext → σ → PolicyResult × RequestContext × σ :=
  fun ctx s => AnyOf.evaluate name PolicyI.pre none children ctx s

/-- `AnyOf.post_execute` = `self._evaluate(context, "post_execute")`. -/
def AnyOf.post_execute {σ : Type} (name : String) (children : List (PolicyI σ)) :
    RequestContext → σ → PolicyResult × RequestContext × σ :=
  fun ctx s => AnyOf.evaluate name PolicyI.post none children ctx s

/-- `composite.py`, `Not.__init__`: the deny reason defaults to
`"Inverted policy '<child>' passed (expected denial)"` when the
`deny_reason` argument is falsy (empty). -/
def NotPolicy.effectiveDenyReason (deny_reason child_name : String) : String :=
  if deny_reason == "" then
    "Inverted policy '" ++ child_name ++ "' passed (expected denial)"
  else deny_reason

/-- `composite.py`, `Not._invert`: an allowing child result becomes
`PolicyResult.deny(self.name, self._deny_reason)`; any non-allowed child
result (denial or pending) becomes `PolicyResult.allow(self.name)`. -/
def NotPolicy.invert (name deny_reason : String) (result : PolicyResult) :
    PolicyResult :=
  if result.allowed then PolicyResult.deny name deny_reason
  else PolicyResult.allow name

/-- `rate_limit.py`, `RateLimitPolicy` configuration (`name`,
`max_requests`, `window_seconds`); the injectable clock becomes the `now`
argument of `pre_execute`. -/
structure RateLimitPolicy where
  name : String
  max_requests : Nat
  window_seconds : Int
deriving DecidableEq, Repr

/-- `RateLimitPolicy.namespace` = `f"rate_limit:{self._name}"`. -/
def RateLimitPolicy.namespaceOf (p : RateLimitPolicy) : String :=
  "rate_limit:" ++ p.name

/-- `rate_limit.py`, `RateLimitPolicy.pre_execute` with the injected
clock's current time passed as `now`:
prune timestamps `≤ now - window_seconds`; deny (without touching the
store) when the surviving count reaches `max_requests`, with metadata
`remaining = 0` and `reset_at = timestamps[0] + window_seconds`; otherwise
append `now`, persist, write `"<name>_remaining"` into the context
metadata and allow.  (When `max_requests = 0` and no timestamp survives,
the Python code's `timestamps[0]` would raise; the model reads `0` there —
no claim exercises that configuration.) -/
def RateLimitPolicy.pre_execute (p : RateLimitPolicy) (now : Int)
    (store : Store) (ctx : RequestContext) :
    PolicyResult × Store × RequestContext :=
  let cutoff : Int := now - p.window_seconds
  let timestamps : List Int :=
    match storeGet store p.namespaceOf ctx.user_id with
    | some (StoreVal.timestamps ts) => ts
    | _ => []
  let pruned := timestamps.filter (fun ts => cutoff < ts)
  if p.max_requests ≤ pruned.length then
    (PolicyResult.deny p.name
      ("Rate limit exceeded: " ++ toString p.max_requests ++
        " requests per " ++ toString p.window_seconds ++ "s")
      [("remaining", MetaVal.mint 0),
       ("reset_at", MetaVal.mint (pruned.headD 0 + p.window_seconds))],
      store, ctx)
  else
    let newTs := pruned ++ [now]
    let store1 := storeSet store p.namespaceOf ctx.user_id
      (StoreVal.timestamps newTs)
    let remaining : Int := (p.max_requests : Int) - (newTs.length : Int)
    let ctx1 := { ctx with
      metadata := alistSet ctx.metadata (p.name ++ "_remaining")
        (MetaVal.mint remaining) }
    (PolicyResult.allow p.name, store1, ctx1)

/-- `rate_limit.py`: `RateLimitPolicy` does not override `Policy.setup`;
the inherited default only records the store reference and performs **no**
store operation, so setup leaves the store unchanged. -/
def RateLimitPolicy.setup (_p : RateLimitPolicy) (store : Store) : Store :=
  store

/-- `access_group.py`, `AccessGroupPolicy` in-memory state: `name`,
`owner`, member set (`_users`, modelled as the list of its elements),
granted documents (`_documents`) and the `_synced` flag. -/
structure AccessGroupPolicy where
  name : String
  owner : String := ""
  users : List String := []
  documents : List String := []
  synced : Bool := false
deriving DecidableEq, Repr

/-- `AccessGroupPolicy.namespace` = `f"access_group:{self._name}"`. -/
def AccessGroupPolicy.namespaceOf (p : AccessGroupPolicy) : String :=
  "access_group:" ++ p.name

/-- `sorted(self._users)` — Python sorts the member set when persisting. -/
def AccessGroupPolicy.sortedUsers (p : AccessGroupPolicy) : List String :=
  sortStrings p.users

/-- `access_group.py`, `AccessGroupPolicy._sync_to_store`: persist the
configuration under key `"_config"` in the policy's namespace and set
`_synced`. -/
def AccessGroupPolicy.sync_to_store (p : AccessGroupPolicy) (store : Store) :
    AccessGroupPolicy × Store :=
  ({ p with synced := true },
    storeSet store p.namespaceOf "_config"
      (StoreVal.agConfig p.owner p.sortedUsers p.documents))

/-- `access_group.py`, `AccessGroupPolicy.setup`: the inherited setup
(store the reference) followed by `_sync_to_store`. -/
def AccessGroupPolicy.setup (p : AccessGroupPolicy) (store : Store) :
    AccessGroupPolicy × Store :=
  p.sync_to_store store

/-- `access_group.py`, `AccessGroupPolicy._load_from_store`: when a
`"_config"` object exists in the policy's namespace, replace the in-memory
owner, users and documents with the stored ones (the `_synced` flag is not
touched). -/
def AccessGroupPolicy.load_from_store (p : AccessGroupPolicy) (store : Store) :
    AccessGroupPolicy :=
  match storeGet store p.namespaceOf "_config" with
  | some (StoreVal.agConfig owner users documents) =>
    { p with owner := owner, users := users, documents := documents }
  | _ => p

/-- One step of first-occurrence-wins de-duplication: keep `acc` when it
already holds `x`, otherwise append `x`. -/
def insDedup (acc : List String) (x : String) : List String :=
  if acc.contains x then acc else acc ++ [x]

/-- `list(dict.fromkeys(xs))`: de-duplicate keeping the first occurrence,
preserving order. -/
def dictFromKeys (xs : List String) : List String :=
  xs.foldl insDedup []

/-- `access_group.py`, `AccessGroupPolicy.pre_execute`: lazily reload the
configuration from the store when not yet synced; deny non-members naming
the user and the group; for members, merge the group's documents into
`context.metadata["resolved_documents"]` with
`list(dict.fromkeys(existing + self._documents))` and allow. -/
def AccessGroupPolicy.pre_execute (p : AccessGroupPolicy) (store : Store)
    (ctx : RequestContext) :
    PolicyResult × AccessGroupPolicy × RequestContext :=
  let p1 := if p.synced then p else p.load_from_store store
  if ctx.user_id ∉ p1.users then
    (PolicyResult.deny p1.name
      ("User '" ++ ctx.user_id ++ "' is not a member of access group '" ++
        p1.name ++ "'"),
      p1, ctx)
  else
    let existing : List String :=
      match alistGet ctx.metadata "resolved_documents" with
      | some (MetaVal.mstrList xs) => xs
      | _ => []
    let merged := dictFromKeys (existing ++ p1.documents)
    let ctx1 := { ctx with
      metadata := alistSet ctx.metadata "resolved_documents"
        (MetaVal.mstrList merged) }
    (PolicyResult.allow p1.name, p1, ctx1)

/-- Python exceptions reaching `Executor.execute`'s `try`/`except` chain:
the three typed errors it names, and any other exception (carried with its
class name, as produced by `type(e).__name__`). -/
inductive PyExc where
  | policyFactoryError (msg : String)
  | handlerLoadError (msg : String)
  | executionError (msg : String)
  | otherError (typeName : String) (msg : String)
deriving DecidableEq, Repr

/-- `str(e)` — the exception's message. -/
def PyExc.message : PyExc → String
  | .policyFactoryError m => m
  | .handlerLoadError m => m
  | .executionError m => m
  | .otherError _ m => m

/-- The `error_type` string `Executor.execute` reports for the exception:
the literal class name in the three typed `except` clauses, and
`type(e).__name__` in the catch-all clause. -/
def PyExc.errorTypeName : PyExc → String
  | .policyFactoryError _ => "PolicyFactoryError"
  | .handlerLoadError _ => "HandlerLoadError"
  | .executionError _ => "ExecutionError"
  | .otherError t _ => t

/-- `runner/schema.py`, `PolicyResultSchema`. -/
structure PolicyResultSchema where
  allowed : Bool
  policy_name : String := ""
  reason : String := ""
  pending : Bool := false
  metadata : List (String × MetaVal) := []
deriving DecidableEq, Repr

/-- `runner/schema.py`, `RunnerOutput` — the structured response the
bridge always produces. -/
structure RunnerOutput where
  success : Bool
  result : Option MetaVal := none
  error : String := ""
  error_type : String := ""
  policy_result : Option PolicyResultSchema := none
deriving DecidableEq, Repr

/-- The outcomes of the effectful steps `Executor._execute_internal`
performs, in order: store creation (may raise `ExecutionError`), factory
`create_all` (may raise `PolicyFactoryError`), the pre-phase chain, loading
and running the handler (`HandlerLoadError` / `ExecutionError`), and the
post-phase chain.  Each step either returns a value or raises; the bridge's
own control flow over these outcomes is what is embedded. -/
structure BridgeEnv where
  createStore : Except PyExc Unit
  buildPolicies : Except PyExc Unit
  runPre : Except PyExc PolicyResult
  runHandler : Except PyExc MetaVal
  runPost : Except PyExc PolicyResult

/-- `executor.py`, `Executor._policy_denied_output`: a failed
`RunnerOutput` with `error = result.reason or "Policy denied"`,
`error_type = "PolicyDenied"` and the policy result attached. -/
def policy_denied_output (result : PolicyResult) : RunnerOutput :=
  { success := false,
    error := if result.reason == "" then "Policy denied" else result.reason,
    error_type := "PolicyDenied",
    policy_result := some
      { allowed := false, policy_name := result.policy_name,
        reason := result.reason, pending := result.pending,
        metadata := result.metadata } }

/-- The outcome of `Executor._execute_internal` together with whether step
5 (load and execute the handler) was ever reached. -/
structure InternalRun where
  outcome : Except PyExc RunnerOutput
  handler_invoked : Bool

/-- `executor.py`, `Executor._execute_internal`: create the store, build
the manager via the factory, run the pre-phase (denial short-circuits to
`_policy_denied_output` without touching the handler), load and run the
handler, attach its output, run the post-phase (denial again yields
`_policy_denied_output`), and on full success return
`RunnerOutput(success=True, result=handler_result,
policy_result=PolicyResultSchema(allowed=True))`.  Any step's exception
propagates out of `_execute_internal`. -/
def execute_internal (env : BridgeEnv) : InternalRun :=
  match env.createStore with
  | .error e => ⟨.error e, false⟩
  | .ok _ =>
    match env.buildPolicies with
    | .error e => ⟨.error e, false⟩
    | .ok _ =>
      match env.runPre with
      | .error e => ⟨.error e, false⟩
      | .ok pre_result =>
        if !pre_result.allowed then
          ⟨.ok (policy_denied_output pre_result), false⟩
        else
          match env.runHandler with
          | .error e => ⟨.error e, true⟩
          | .ok handler_result =>
            match env.runPost with
            | .error e => ⟨.error e, true⟩
            | .ok post_result =>
              if !post_result.allowed then
                ⟨.ok (policy_denied_output post_result), true⟩
              else
                ⟨.ok { success := true, result := some handler_result,
                       policy_result := some { allowed := true } }, true⟩

/-- `executor.py`, `Executor.execute`: return `_execute_internal`'s output
when it returns; convert each exception it raises into a failed
`RunnerOutput` carrying `str(e)` and the error type — `PolicyFactoryError`,
`HandlerLoadError`, `ExecutionError`, or `type(e).__name__` for any other
exception.  No exception escapes. -/
def Executor.execute (env : BridgeEnv) : RunnerOutput :=
  match (execute_internal env).outcome with
  | .ok output => output
  | .error (.policyFactoryError m) =>
    { success := false, error := m, error_type := "PolicyFactoryError" }
  | .error (.handlerLoadError m) =>
    { success := false, error := m, error_type := "HandlerLoadError" }
  | .error (.executionError m) =>
    { success := false, error := m, error_type := "ExecutionError" }
  | .error (.otherError t m) =>
    { success := false, error := m, error_type := t }

/-- `runner/factory.py`: policies a factory builds.  Non-composite types
are opaque to the factory (it only instantiates them), so they are
embedded as leaves carrying their name and type; composites carry their
resolved children. -/
inductive FactoryPolicy where
  | leaf (name ptype : String)
  | allOfP (name : String) (children : List FactoryPolicy)
  | anyOfP (name : String) (children : List FactoryPolicy)
  | notP (name : String) (child : FactoryPolicy) (deny_reason : String)

/-- Configuration values occurring in `PolicyConfigSchema.config`: the
factory itself only reads strings (`"policy"`, `"deny_reason"`) and string
lists (`"policies"`). -/
inductive CVal where
  | cstr (s : String)
  | cstrList (xs : List String)
deriving DecidableEq, Repr

/-- `runner/schema.py`, `PolicyConfigSchema`. -/
structure PolicyConfigSchema where
  name : String
  type : String
  config : List (String × CVal) := []
deriving DecidableEq, Repr

/-- `PolicyFactory._registry` keys, in the class definition's (dict
insertion) order. -/
def factory_registry_types : List String :=
  ["access_group", "rate_limit", "token_limit", "prompt_filter",
   "attribution", "manual_review", "transaction", "custom"]

/-- `PolicyFactory._composite_types`. -/
def factory_composite_types : List String := ["all_of", "any_of", "not"]

/-- `PolicyFactory.registered_types()`: registry keys then composites. -/
def factory_registered_types : List String :=
  factory_registry_types ++ factory_composite_types

/-- `", ".join(sorted(self.registered_types()))` in the unknown-type
message. -/
def factory_available_types : String :=
  String.intercalate ", " (sortStrings factory_registered_types)

/-- Errors out of `PolicyFactory._create_one`: a `PolicyFactoryError`
(raised by the factory itself) or any other exception raised while
instantiating a policy class — `create_all` treats the two differently. -/
inductive CreateErr where
  | factoryError (msg : String)
  | otherExc (msg : String)
deriving DecidableEq, Repr

/-- The behavior of `policy_class(name=config.name, **config.config)` for
registered non-composite types: the constructed instance, or the message of
the exception the constructor raised.  The factory treats instantiation as
a black box, so it is a parameter of the embedding. -/
def Instantiate : Type :=
  String → String → List (String × CVal) → Except String FactoryPolicy

/-- `PolicyFactory._resolve`: look the name up in the instance cache; a
miss is a `PolicyFactoryError` naming both the referrer and the missing
reference. -/
def factory_resolve (instances : List (String × FactoryPolicy))
    (name referrer : String) : Except String FactoryPolicy :=
  match alistGet instances name with
  | some p => .ok p
  | none =>
    .error ("Policy '" ++ referrer ++ "' references '" ++ name ++
      "', but '" ++ name ++ "' is not defined. Ensure '" ++ name ++
      "' is defined before '" ++ referrer ++ "' in the policies list.")

/-- `config.config.get("policies", [])`, read as a list of names. -/
def configPoliciesList (config : List (String × CVal)) : List String :=
  match alistGet config "policies" with
  | some (CVal.cstrList xs) => xs
  | _ => []

/-- The list comprehension `[self._resolve(name, config.name) for name in
child_names]`: resolve the names in order, raising at the first failure. -/
def factory_resolve_all (instances : List (String × FactoryPolicy))
    (referrer : String) : List String → Except String (List FactoryPolicy)
  | [] => .ok []
  | n :: ns =>
    match factory_resolve instances n referrer with
    | .error m => .error m
    | .ok p =>
      match factory_resolve_all instances referrer ns with
      | .error m => .error m
      | .ok ps => .ok (p :: ps)

/-- `PolicyFactory._create_composite`: build `AllOf`/`AnyOf`/`Not` from a
composite config, resolving every referenced child from the instance
cache; missing `policies`/`policy` entries and unresolved references are
`PolicyFactoryError`s. -/
def factory_create_composite (instances : List (String × FactoryPolicy))
    (config : PolicyConfigSchema) : Except String FactoryPolicy :=
  if config.type == "all_of" then
    let child_names := configPoliciesList config.config
    if child_names.isEmpty then
      .error ("all_of policy '" ++ config.name ++ "' requires 'policies' list")
    else
      match factory_resolve_all instances config.name child_names with
      | .error m => .error m
      | .ok children => .ok (FactoryPolicy.allOfP config.name children)
  else if config.type == "any_of" then
    let child_names := configPoliciesList config.config
    if child_names.isEmpty then
      .error ("any_of policy '" ++ config.name ++ "' requires 'policies' list")
    else
      match factory_resolve_all instances config.name child_names with
      | .error m => .error m
      | .ok children => .ok (FactoryPolicy.anyOfP config.name children)
  else if config.type == "not" then
    match alistGet config.config "policy" with
    | some (CVal.cstr child_name) =>
      if child_name == "" then
        .error ("not policy '" ++ config.name ++ "' requires 'policy' reference")
      else
        match factory_resolve instances child_name config.name with
        | .error m => .error m
        | .ok child =>
          .ok (FactoryPolicy.notP config.name child
            (match alistGet config.config "deny_reason" with
             | some (CVal.cstr s) => s
             | _ => "Policy condition not met"))
    | _ =>
      .error ("not policy '" ++ config.name ++ "' requires 'policy' reference")
  else
    .error ("Unknown composite type: '" ++ config.type ++ "'")

/-- `PolicyFactory._create_one`: composites go to `_create_composite`; an
unregistered type is a `PolicyFactoryError` listing the available types
(and naming only the offending type); otherwise the registered class is
instantiated, whose exceptions are *not* `PolicyFactoryError`s. -/
def factory_create_one (inst : Instantiate)
    (instances : List (String × FactoryPolicy))
    (config : PolicyConfigSchema) : Except CreateErr FactoryPolicy :=
  if factory_composite_types.contains config.type then
    match factory_create_composite instances config with
    | .ok p => .ok p
    | .error m => .error (.factoryError m)
  else if factory_registry_types.contains config.type then
    match inst config.type config.name config.config with
    | .ok p => .ok p
    | .error m => .error (.otherExc m)
  else
    .error (.factoryError ("Unknown policy type: '" ++ config.type ++
      "'. Available types: " ++ factory_available_types))

/-- The loop of `PolicyFactory.create_all`: process configs in order,
caching each created instance under its configured name;
`PolicyFactoryError`s re-raise unchanged, any other exception is wrapped
into `PolicyFactoryError("Failed to create policy '<name>' of type
'<type>': <e>")`. -/
def factory_create_all_go (inst : Instantiate)
    (instances : List (String × FactoryPolicy)) (acc : List FactoryPolicy) :
    List PolicyConfigSchema → Except String (List FactoryPolicy)
  | [] => .ok acc.reverse
  | config :: rest =>
    match factory_create_one inst instances config with
    | .ok policy =>
      factory_create_all_go inst (alistSet instances config.name policy)
        (policy :: acc) rest
    | .error (.factoryError m) => .error m
    | .error (.otherExc m) =>
      .error ("Failed to create policy '" ++ config.name ++ "' of type '" ++
        config.type ++ "': " ++ m)

/-- `PolicyFactory.create_all` on a fresh factory (empty instance cache);
the error value is the raised `PolicyFactoryError`'s message. -/
def factory_create_all (inst : Instantiate)
    (configs : List PolicyConfigSchema) : Except String (List FactoryPolicy) :=
  factory_create_all_go inst [] [] configs

/-! ### Test fixtures (instrumented policies, sample environments) -/

/-- Increment counter `i` in a function-valued counter table. -/
def bump (i : Nat) (c : Nat → Nat) : Nat → Nat :=
  fun j => if j = i then c j + 1 else c j

/-- A policy that returns the fixed result `r` in both phases, leaving the
context and the ambient state untouched. -/
def constPolicy {σ : Type} (r : PolicyResult) : PolicyI σ :=
  ⟨fun ctx s => (r, ctx, s), fun ctx s => (r, ctx, s)⟩

/-- A policy that returns the fixed result `r` in both phases and bumps
side-effect counter `i`, witnessing that it was invoked. -/
def countingPolicy (r : PolicyResult) (i : Nat) : PolicyI (Nat → Nat) :=
  ⟨fun ctx c => (r, ctx, bump i c), fun ctx c => (r, ctx, bump i c)⟩

/-- Result produced by chain member `i` when member `k` is the denier. -/
def probeResult (k i : Nat) : PolicyResult :=
  if i = k then PolicyResult.deny ("policy_" ++ toString i) "denied by probe"
  else PolicyResult.allow ("policy_" ++ toString i)

/-- Chain member `i`: denies exactly when `i = k`, counts its invocations. -/
def probeDenyAt (k i : Nat) : PolicyI (Nat → Nat) :=
  countingPolicy (probeResult k i) i

/-- A chain of `n` instrumented policies in which member `k` denies and all
others allow (`k = n` makes every member allow). -/
def probeChain (n k : Nat) : List (PolicyI (Nat → Nat)) :=
  (List.range n).map (probeDenyAt k)

/-- A sample request context. -/
def ctx0 : RequestContext := { user_id := "user_a" }

/-- All side-effect counters at zero. -/
def zeroCounts : Nat → Nat := fun _ => 0

/-- Bridge environment whose store-creation step raises `ExecutionError`
(as `_create_store` does for a sqlite config without a path). -/
def envStoreError : BridgeEnv :=
  { createStore :=
      Except.error (PyExc.executionError "SQLite store requires 'path' configuration"),
    buildPolicies := Except.ok (),
    runPre := Except.ok (PolicyResult.allow ""),
    runHandler := Except.ok (MetaVal.mstr "ok"),
    runPost := Except.ok (PolicyResult.allow "") }

/-- Bridge environment whose pre-phase denies. -/
def envPreDeny : BridgeEnv :=
  { createStore := Except.ok (),
    buildPolicies := Except.ok (),
    runPre := Except.ok (PolicyResult.deny "gate" "blocked by gate"),
    runHandler := Except.ok (MetaVal.mstr "handler ran"),
    runPost := Except.ok (PolicyResult.allow "") }

/-- Bridge environment whose handler succeeds and whose post-phase denies. -/
def envPostDeny : BridgeEnv :=
  { createStore := Except.ok (),
    buildPolicies := Except.ok (),
    runPre := Except.ok (PolicyResult.allow ""),
    runHandler := Except.ok (MetaVal.mstr "handler ran"),
    runPost := Except.ok (PolicyResult.deny "audit" "blocked after run") }

/-- An instantiation behavior that always constructs successfully. -/
def instOk : Instantiate :=
  fun ptype name _ => Except.ok (FactoryPolicy.leaf name ptype)

/-- An instantiation behavior that always raises an exception with message
`msg` (e.g. a `TypeError` from unexpected constructor kwargs). -/
def instFail (msg : String) : Instantiate :=
  fun _ _ _ => Except.error msg

/-- The rate limiter of the spec's scenario: `max_requests = 3`,
`window_seconds = 60`. -/
def rlP : RateLimitPolicy := { name := "rate_limit", max_requests := 3, window_seconds := 60 }

/-- One `pre_execute` call of the scenario rate limiter at clock time `t`
by user `u` against store `s`. -/
def rlStep (t : Int) (s : Store) (u : String) :
    PolicyResult × Store × RequestContext :=
  rlP.pre_execute t s { user_id := u }

/-- Store after the scenario's first call (time `t`). -/
def rlS1 (t : Int) (u : String) : Store := (rlStep t [] u).2.1

/-- Store after the second call (time `t + 1`). -/
def rlS2 (t : Int) (u : String) : Store := (rlStep (t + 1) (rlS1 t u) u).2.1

/-- Store after the third call (time `t + 2`). -/
def rlS3 (t : Int) (u : String) : Store := (rlStep (t + 2) (rlS2 t u) u).2.1

/-- Store after the fourth (denied) call (time `t + 3`). -/
def rlS4 (t : Int) (u : String) : Store := (rlStep (t + 3) (rlS3 t u) u).2.1

/-- An access group whose single member is `uid`, already synced. -/
def agGroup (name uid : String) (docs : List String) : AccessGroupPolicy :=
  { name := name, users := [uid], documents := docs, synced := true }

/-- One `pre_execute` call of such a group against an empty store. -/
def agStep (name uid : String) (docs : List String) (ctx : RequestContext) :
    PolicyResult × AccessGroupPolicy × RequestContext :=
  (agGroup name uid docs).pre_execute [] ctx

/-- Whether the first list stands at the head of the second (character
lists). -/
def charsStartWith : List Char → List Char → Bool
  | [], _ => true
  | _ :: _, [] => false
  | a :: as, b :: bs => a == b && charsStartWith as bs

/-- Whether the first list occurs anywhere inside the second. -/
def charsHaveSub (needle : List Char) : List Char → Bool
  | [] => needle.isEmpty
  | b :: t => charsStartWith needle (b :: t) || charsHaveSub needle t

/-- Substring occurrence test on strings (`needle in hay` in Python). -/
def strHasSub (hay needle : String) : Bool :=
  charsHaveSub needle.toList hay.toList

/-! ### Theorems -/

/-- Reading back the binding just written: `alistSet` followed by
`alistGet` at the same key yields the written value. -/
theorem alistGet_alistSet_same {β α : Type} [BEq β] [LawfulBEq β]
    (d : List (β × α)) (k : β) (v : α) :
    alistGet (alistSet d k v) k = some v := by
  induction d with
  | nil => simp [alistGet, alistSet]
  | cons e t ih =>
    by_cases hp : (e.1 == k) = true
    · simp [alistSet, alistGet, hp, List.find?]
    · by_cases ha : t.any (fun p => p.1 == k) = true
      · simp only [alistSet, alistGet, List.any_cons, hp, Bool.false_or, ha,
          if_true, List.map_cons, List.find?] at ih ⊢
        simpa [hp] using ih
      · simp only [alistSet, alistGet, List.any_cons, hp, Bool.false_or, ha,
          if_false, List.find?] at ih ⊢
        simpa [hp] using ih

/-- C5: `Not` returns a denial with its configured deny reason (defaulting
to the generic "inverted policy passed" message) when the child's result is
allowed, and returns a plain allow under the composite's own name when the
child's result is not allowed — including a pending child result, which is
treated as not-allowed and inverted into a non-pending allow. -/
theorem not_policy_inverts (name deny_reason child_name : String)
    (r : PolicyResult) :
    (r.allowed = true →
      NotPolicy.invert name deny_reason r = PolicyResult.deny name deny_reason) ∧
    (r.allowed = false →
      NotPolicy.invert name deny_reason r = PolicyResult.allow name) ∧
    (NotPolicy.effectiveDenyReason "" child_name =
      "Inverted policy '" ++ child_name ++ "' passed (expected denial)") ∧
    (deny_reason ≠ "" →
      NotPolicy.effectiveDenyReason deny_reason child_name = deny_reason) ∧
    (r.pending = true → r.allowed = false →
      NotPolicy.invert name deny_reason r = PolicyResult.allow name ∧
      (NotPolicy.invert name deny_reason r).pending = false ∧
      (NotPolicy.invert name deny_reason r).allowed = true) := by
  refine ⟨fun h => ?_, fun h => ?_, ?_, fun h => ?_, fun _ h => ?_⟩
  · simp [NotPolicy.invert, h]
  · simp [NotPolicy.invert, h]
  · simp [NotPolicy.effectiveDenyReason]
  · simp [NotPolicy.effectiveDenyReason, h]
  · simp [NotPolicy.invert, h, PolicyResult.allow]

/-- C5 witness: inverting a concrete pending result yields a plain allow,
and inverting a concrete allow yields the configured denial. -/
theorem not_policy_inverts_witness :
    NotPolicy.invert "not(review)" "why" (PolicyResult.pend "review" "wait")
      = PolicyResult.allow "not(review)" ∧
    NotPolicy.invert "not(review)" "why" (PolicyResult.allow "review")
      = PolicyResult.deny "not(review)" "why" :=
  ⟨(not_policy_inverts "not(review)" "why" "review"
      (PolicyResult.pend "review" "wait")).2.1 (by decide),
   (not_policy_inverts "not(review)" "why" "review"
      (PolicyResult.allow "review")).1 (by decide)⟩

/-- C6 counterexample: the Python `PolicyResult` dataclass performs no
validation, so the raw constructor builds a value with `pending = true` and
`allowed = true`, refuting the claim for values constructed directly. -/
theorem policy_result_raw_breaks_invariant :
    (PolicyResult.mk true "" "" true []).pending = true ∧
    (PolicyResult.mk true "" "" true []).allowed = true := by
  decide

/-- C6 (amended): every result built through the `allow`/`deny`/`pend`
factory helpers satisfies the invariant `pending = true → allowed = false`
(`allow` and `deny` set `pending = false`; `pend` sets `allowed = false`);
the raw constructor does not enforce it. -/
theorem policy_result_factories_invariant (name reason : String)
    (meta : List (String × MetaVal)) :
    (PolicyResult.allow name).pending = false ∧
    (PolicyResult.deny name reason meta).pending = false ∧
    ((PolicyResult.pend name reason meta).pending = true ∧
      (PolicyResult.pend name reason meta).allowed = false) ∧
    (∀ r : PolicyResult,
      (r = PolicyResult.allow name ∨ r = PolicyResult.deny name reason meta ∨
        r = PolicyResult.pend name reason meta) →
      r.pending = true → r.allowed = false) := by
  refine ⟨rfl, rfl, ⟨rfl, rfl⟩, ?_⟩
  rintro r (rfl | rfl | rfl) hp
  · simp [PolicyResult.allow] at hp
  · simp [PolicyResult.deny] at hp
  · rfl

/-- C6 witness: the invariant at a concrete pending factory result. -/
theorem policy_result_factories_invariant_witness :
    (PolicyResult.pend "review" "needs human" []).allowed = false :=
  (policy_result_factories_invariant "review" "needs human" []).2.2.2
    (PolicyResult.pend "review" "needs human" [])
    (Or.inr (Or.inr rfl)) (by decide)

/-- C2: `Executor.execute` converts every exception `_execute_internal`
raises — factory error, handler-load error, execution error, or any
unexpected exception — into a failed `RunnerOutput` carrying the error
message and the error type, and passes through the structured output of
every non-raising run; no exception propagates. -/
theorem executor_execute_catches_everything (env : BridgeEnv) (e : PyExc)
    (h : (execute_internal env).outcome = Except.error e) :
    ((Executor.execute env).success = false ∧
      (Executor.execute env).error = e.message ∧
      (Executor.execute env).error_type = e.errorTypeName) ∧
    (∀ env2 output, (execute_internal env2).outcome = Except.ok output →
      Executor.execute env2 = output) := by
  constructor
  · unfold Executor.execute
    rw [h]
    cases e <;> simp [PyExc.message, PyExc.errorTypeName]
  · intro env2 output h2
    unfold Executor.execute
    rw [h2]

/-- C2 witness: a store-creation failure surfaces as a structured
`ExecutionError` response. -/
theorem executor_execute_catches_everything_witness :
    (Executor.execute envStoreError).success = false ∧
    (Executor.execute envStoreError).error =
      "SQLite store requires 'path' configuration" ∧
    (Executor.execute envStoreError).error_type = "ExecutionError" :=
  (executor_execute_catches_everything envStoreError
    (PyExc.executionError "SQLite store requires 'path' configuration") rfl).1

/-- C3: when the pre-phase result is not allowed, the handler step is never
reached and the bridge returns the policy-denial failure output for that
result; when the pre-phase allows, the handler runs, and the post-phase
result is not allowed, the bridge still returns the policy-denial failure
output (not success) for the post-phase result, with the handler step
having been reached. -/
theorem bridge_policy_denials :
    (∀ (env : BridgeEnv) (pre_result : PolicyResult),
      env.createStore = Except.ok () → env.buildPolicies = Except.ok () →
      env.runPre = Except.ok pre_result → pre_result.allowed = false →
      (execute_internal env).handler_invoked = false ∧
      (execute_internal env).outcome =
        Except.ok (policy_denied_output pre_result) ∧
      (policy_denied_output pre_result).success = false ∧
      (policy_denied_output pre_result).error_type = "PolicyDenied" ∧
      (policy_denied_output pre_result).policy_result = some
        { allowed := false, policy_name := pre_result.policy_name,
          reason := pre_result.reason, pending := pre_result.pending,
          metadata := pre_result.metadata }) ∧
    (∀ (env : BridgeEnv) (pre_result : PolicyResult) (v : MetaVal)
        (post_result : PolicyResult),
      env.createStore = Except.ok () → env.buildPolicies = Except.ok () →
      env.runPre = Except.ok pre_result → pre_result.allowed = true →
      env.runHandler = Except.ok v →
      env.runPost = Except.ok post_result → post_result.allowed = false →
      (execute_internal env).handler_invoked = true ∧
      (execute_internal env).outcome =
        Except.ok (policy_denied_output post_result) ∧
      (policy_denied_output post_result).success = false ∧
      (policy_denied_output post_result).policy_result = some
        { allowed := false, policy_name := post_result.policy_name,
          reason := post_result.reason, pending := post_result.pending,
          metadata := post_result.metadata }) := by
  constructor
  · intro env pre_result h1 h2 h3 h4
    simp [execute_internal, policy_denied_output, h1, h2, h3, h4]
  · intro env pre_result v post_result h1 h2 h3 h4 h5 h6 h7
    simp [execute_internal, policy_denied_output, h1, h2, h3, h4, h5, h6, h7]

/-- C3 witness: the two denial shapes at concrete environments. -/
theorem bridge_policy_denials_witness :
    (execute_internal envPreDeny).handler_invoked = false ∧
    (execute_internal envPreDeny).outcome =
      Except.ok (policy_denied_output (PolicyResult.deny "gate" "blocked by gate")) ∧
    (execute_internal envPostDeny).handler_invoked = true ∧
    (execute_internal envPostDeny).outcome =
      Except.ok (policy_denied_output (PolicyResult.deny "audit" "blocked after run")) :=
  ⟨(bridge_policy_denials.1 envPreDeny (PolicyResult.deny "gate" "blocked by gate")
      rfl rfl rfl rfl).1,
   (bridge_policy_denials.1 envPreDeny (PolicyResult.deny "gate" "blocked by gate")
      rfl rfl rfl rfl).2.1,
   (bridge_policy_denials.2 envPostDeny (PolicyResult.allow "")
      (MetaVal.mstr "handler ran") (PolicyResult.deny "audit" "blocked after run")
      rfl rfl rfl rfl rfl rfl rfl).1,
   (bridge_policy_denials.2 envPostDeny (PolicyResult.allow "")
      (MetaVal.mstr "handler ran") (PolicyResult.deny "audit" "blocked after run")
      rfl rfl rfl rfl rfl rfl rfl).2.1⟩

/-- C4: `AllOf` over [allow, deny] returns the denying child's result
unchanged and never evaluates a child placed after the first non-allowed
child (its side-effect counter stays untouched); `AnyOf` over [deny, allow]
returns an allow; `AnyOf` with zero children returns the "No child policies
configured" denial; `AnyOf` whose children all deny returns the last
child's denial verbatim. -/
theorem composite_allof_anyof_semantics (name : String)
    (ar dr dr2 : PolicyResult) (ctx : RequestContext) (c : Nat → Nat) (i : Nat)
    (ha : ar.allowed = true) (hd : dr.allowed = false)
    (hd2 : dr2.allowed = false) :
    (AllOf.pre_execute name
        [constPolicy ar, constPolicy dr, countingPolicy ar i] ctx c
      = (dr, ctx, c)) ∧
    (AnyOf.pre_execute name [constPolicy dr, constPolicy ar] ctx c
      = (PolicyResult.allow name, ctx, c)) ∧
    (AnyOf.pre_execute name ([] : List (PolicyI (Nat → Nat))) ctx c
      = (PolicyResult.deny name "No child policies configured", ctx, c)) ∧
    (AnyOf.pre_execute name [constPolicy dr, constPolicy dr2] ctx c
      = (dr2, ctx, c)) := by
  refine ⟨?_, ?_, ?_, ?_⟩ <;>
    simp [AllOf.pre_execute, AnyOf.pre_execute, AnyOf.evaluate, constPolicy,
      countingPolicy, ha, hd, hd2]

/-- C4 witness: the `AllOf` short-circuit (third child's counter is never
bumped) and the all-deny `AnyOf` at concrete children. -/
theorem composite_allof_anyof_semantics_witness :
    AllOf.pre_execute "combo"
        [constPolicy (PolicyResult.allow "a"),
         constPolicy (PolicyResult.deny "d" "nope"),
         countingPolicy (PolicyResult.allow "a") 2] ctx0 zeroCounts
      = (PolicyResult.deny "d" "nope", ctx0, zeroCounts) ∧
    AnyOf.pre_execute "combo"
        [constPolicy (PolicyResult.deny "d" "nope"),
         constPolicy (PolicyResult.deny "e" "nope2")] ctx0 zeroCounts
      = (PolicyResult.deny "e" "nope2", ctx0, zeroCounts) :=
  ⟨(composite_allof_anyof_semantics "combo" (PolicyResult.allow "a")
      (PolicyResult.deny "d" "nope") (PolicyResult.deny "e" "nope2")
      ctx0 zeroCounts 2 (by decide) (by decide) (by decide)).1,
   (composite_allof_anyof_semantics "combo" (PolicyResult.allow "a")
      (PolicyResult.deny "d" "nope") (PolicyResult.deny "e" "nope2")
      ctx0 zeroCounts 2 (by decide) (by decide) (by decide)).2.2.2⟩

/-- C9 counterexample: the rate limiter's `setup` is the inherited default,
which performs no store write — after setting up a concrete rate limiter on
an empty store the store is still empty and its namespace holds no
configuration, refuting the claim that every stateful built-in policy
writes its initial configuration to the store on setup. -/
theorem rate_limit_setup_writes_nothing :
    RateLimitPolicy.setup { name := "rl", max_requests := 3, window_seconds := 60 } [] = [] ∧
    storeGet (RateLimitPolicy.setup { name := "rl", max_requests := 3, window_seconds := 60 } [])
      "rate_limit:rl" "_config" = none :=
  ⟨rfl, rfl⟩

/-- C9 (amended): the access group policy on `setup` persists its
configuration under `"_config"` in its own namespace and marks itself
synced, and an unsynced instance reloads the stored configuration at the
start of `pre_execute`, so the store's contents win over the in-memory
default (a user present only in the stored configuration is admitted); the
rate limiter's `setup`, by contrast, performs no store write at all. -/
theorem access_group_sync_pattern (g : AccessGroupPolicy) (store : Store)
    (uid owner2 : String) (docs2 : List String) :
    (storeGet (g.setup store).2 g.namespaceOf "_config"
      = some (StoreVal.agConfig g.owner g.sortedUsers g.documents)) ∧
    ((g.setup store).1.synced = true) ∧
    ((AccessGroupPolicy.pre_execute
        { name := g.name, owner := "", users := [], documents := [],
          synced := false }
        (storeSet store ("access_group:" ++ g.name) "_config"
          (StoreVal.agConfig owner2 [uid] docs2))
        { user_id := uid }).1 = PolicyResult.allow g.name) ∧
    (∀ p : RateLimitPolicy, p.setup store = store) := by
  refine ⟨?_, ?_, ?_, fun p => rfl⟩
  · simp [AccessGroupPolicy.setup, AccessGroupPolicy.sync_to_store,
      storeGet, storeSet, alistGet_alistSet_same]
  · rfl
  · simp [AccessGroupPolicy.pre_execute, AccessGroupPolicy.load_from_store,
      AccessGroupPolicy.namespaceOf, storeGet, storeSet,
      alistGet_alistSet_same]

/-- De-duplication only ever appends: the accumulator is a prefix of the
fold's result, so prior entries keep their order and positions. -/
theorem foldl_insDedup_extends (xs : List String) :
    ∀ acc : List String, ∃ t, xs.foldl insDedup acc = acc ++ t := by
  induction xs with
  | nil => exact fun acc => ⟨[], by simp⟩
  | cons x xs ih =>
    intro acc
    by_cases hx : x ∈ acc
    · have step : insDedup acc x = acc := by simp [insDedup, hx]
      obtain ⟨t, ht⟩ := ih acc
      exact ⟨t, by rw [List.foldl_cons, step, ht]⟩
    · have step : insDedup acc x = acc ++ [x] := by simp [insDedup, hx]
      obtain ⟨t, ht⟩ := ih (acc ++ [x])
      refine ⟨[x] ++ t, ?_⟩
      rw [List.foldl_cons, step, ht, List.append_assoc]

/-- De-duplication preserves freedom from duplicates. -/
theorem foldl_insDedup_nodup (xs : List String) :
    ∀ acc : List String, acc.Nodup → (xs.foldl insDedup acc).Nodup := by
  induction xs with
  | nil => exact fun acc h => h
  | cons x xs ih =>
    intro acc hacc
    by_cases hx : x ∈ acc
    · have step : insDedup acc x = acc := by simp [insDedup, hx]
      rw [List.foldl_cons, step]
      exact ih acc hacc
    · have step : insDedup acc x = acc ++ [x] := by simp [insDedup, hx]
      have hnd : (acc ++ [x]).Nodup := by
        simp [List.nodup_append, hacc, hx]
      rw [List.foldl_cons, step]
      exact ih (acc ++ [x]) hnd

/-- Folding a duplicate-free list of fresh elements appends it verbatim. -/
theorem foldl_insDedup_of_fresh (xs : List String) :
    ∀ acc : List String, (∀ x ∈ xs, x ∉ acc) → xs.Nodup →
      xs.foldl insDedup acc = acc ++ xs := by
  induction xs with
  | nil => intro acc _ _; simp
  | cons x xs ih =>
    intro acc hfresh hnodup
    have hx : x ∉ acc := hfresh x (List.mem_cons_self x xs)
    have step : insDedup acc x = acc ++ [x] := by simp [insDedup, hx]
    have hrest : ∀ y ∈ xs, y ∉ acc ++ [x] := by
      intro y hy
      simp only [List.mem_append, List.mem_singleton]
      rintro (h | rfl)
      · exact hfresh y (List.mem_cons_of_mem x hy) h
      · exact (List.nodup_cons.mp hnodup).1 hy
    have := ih (acc ++ [x]) hrest (List.nodup_cons.mp hnodup).2
    rw [List.foldl_cons, step, this, List.append_assoc]
    simp

/-- `dictFromKeys` produces a duplicate-free list. -/
theorem dictFromKeys_nodup (xs : List String) : (dictFromKeys xs).Nodup :=
  foldl_insDedup_nodup xs [] List.nodup_nil

/-- `dictFromKeys` is idempotent. -/
theorem dictFromKeys_idem (xs : List String) :
    dictFromKeys (dictFromKeys xs) = dictFromKeys xs := by
  have := foldl_insDedup_of_fresh (dictFromKeys xs) []
    (by simp) (dictFromKeys_nodup xs)
  simpa [dictFromKeys] using this

/-- Deduplicating on top of an already-deduplicated left part is the same
as deduplicating the concatenation. -/
theorem dictFromKeys_append_left (xs ys : List String) :
    dictFromKeys (dictFromKeys xs ++ ys) = dictFromKeys (xs ++ ys) := by
  have h1 : dictFromKeys (dictFromKeys xs) = dictFromKeys xs :=
    dictFromKeys_idem xs
  unfold dictFromKeys at h1 ⊢
  rw [List.foldl_append, List.foldl_append, h1]

/-- C8: for a member user, evaluating two access groups in sequence
accumulates `resolved_documents` as the first-occurrence-wins
de-duplication of the concatenated document lists, with the first group's
entries kept as an unchanged prefix; in particular the spec's two concrete
scenarios hold: `["doc_1"]` then `["doc_2"]` gives `["doc_1", "doc_2"]`,
and `["doc_a"]` then `["doc_a", "doc_b"]` gives `["doc_a", "doc_b"]`. -/
theorem access_group_merge (uid : String) (d1 d2 : List String) :
    ((agStep "group1" uid d1 { user_id := uid }).1
      = PolicyResult.allow "group1") ∧
    ((agStep "group2" uid d2
        (agStep "group1" uid d1 { user_id := uid }).2.2).1
      = PolicyResult.allow "group2") ∧
    (alistGet ((agStep "group2" uid d2
          (agStep "group1" uid d1 { user_id := uid }).2.2).2.2).metadata
        "resolved_documents"
      = some (MetaVal.mstrList (dictFromKeys (d1 ++ d2)))) ∧
    (∃ t, dictFromKeys (d1 ++ d2) = dictFromKeys d1 ++ t) ∧
    (alistGet ((agStep "g2" "alice" ["doc_2"]
          (agStep "g1" "alice" ["doc_1"] { user_id := "alice" }).2.2).2.2).metadata
        "resolved_documents"
      = some (MetaVal.mstrList ["doc_1", "doc_2"])) ∧
    (alistGet ((agStep "g2" "alice" ["doc_a", "doc_b"]
          (agStep "g1" "alice" ["doc_a"] { user_id := "alice" }).2.2).2.2).metadata
        "resolved_documents"
      = some (MetaVal.mstrList ["doc_a", "doc_b"])) := by
  refine ⟨?_, ?_, ?_, ?_, by decide, by decide⟩
  · simp [agStep, agGroup, AccessGroupPolicy.pre_execute, alistGet, alistSet]
  · simp [agStep, agGroup, AccessGroupPolicy.pre_execute, alistGet, alistSet]
  · simp [agStep, agGroup, AccessGroupPolicy.pre_execute, alistGet, alistSet,
      dictFromKeys_append_left]
  · have h := foldl_insDedup_extends d2 (dictFromKeys d1)
    obtain ⟨t, ht⟩ := h
    refine ⟨t, ?_⟩
    unfold dictFromKeys at ht ⊢
    rw [List.foldl_append]
    exact ht

/-- C10 counterexample: creating a policy named `"p1"` with unknown type
`"bogus"` raises the factory error whose message names the offending type
and the available types but does **not** contain the policy's name `"p1"`
(splitting the message on `"p1"` leaves it in one piece), refuting the
claim that every non-composite construction failure carries the offending
policy's name. -/
theorem factory_unknown_type_error_lacks_name :
    factory_create_all instOk
        [{ name := "p1", type := "bogus", config := [] }]
      = Except.error ("Unknown policy type: 'bogus'. Available types: " ++
          factory_available_types) ∧
    strHasSub ("Unknown policy type: 'bogus'. Available types: " ++
        factory_available_types) "p1" = false ∧
    strHasSub ("Unknown policy type: 'bogus'. Available types: " ++
        factory_available_types) "bogus" = true :=
  ⟨rfl, by decide, by decide⟩

/-- C10 (amended): configurations are processed in list order; a composite
referencing a name not created earlier raises the factory error naming
both the referrer and the missing reference, while the same configuration
with the reference defined earlier succeeds; an exception raised while
instantiating a registered type is wrapped into the factory error carrying
the offending policy's name and type; an unknown type raises the factory
error naming the offending type and the list of available types (the
policy's name is not part of that message). -/
theorem factory_reference_resolution (inst : Instantiate)
    (referrer missing failmsg pname : String) :
    (factory_create_all inst
        [{ name := referrer, type := "all_of",
           config := [("policies", CVal.cstrList [missing])] }]
      = Except.error ("Policy '" ++ referrer ++ "' references '" ++ missing ++
          "', but '" ++ missing ++ "' is not defined. Ensure '" ++ missing ++
          "' is defined before '" ++ referrer ++ "' in the policies list.")) ∧
    (factory_create_all instOk
        [{ name := missing, type := "custom", config := [] },
         { name := referrer, type := "all_of",
           config := [("policies", CVal.cstrList [missing])] }]
      = Except.ok [FactoryPolicy.leaf missing "custom",
          FactoryPolicy.allOfP referrer [FactoryPolicy.leaf missing "custom"]]) ∧
    (factory_create_all (instFail failmsg)
        [{ name := pname, type := "rate_limit", config := [] }]
      = Except.error ("Failed to create policy '" ++ pname ++
          "' of type '" ++ "rate_limit" ++ "': " ++ failmsg)) ∧
    (factory_create_all inst
        [{ name := pname, type := "bogus", config := [] }]
      = Except.error ("Unknown policy type: 'bogus'. Available types: " ++
          factory_available_types)) := by
  refine ⟨?_, ?_, ?_, ?_⟩
  · simp [factory_create_all, factory_create_all_go, factory_create_one,
      factory_create_composite, factory_composite_types,
      factory_registry_types, configPoliciesList, factory_resolve,
      factory_resolve_all, alistGet]
  · simp [factory_create_all, factory_create_all_go, factory_create_one,
      factory_create_composite, factory_composite_types,
      factory_registry_types, configPoliciesList, factory_resolve,
      factory_resolve_all, alistGet, alistSet, instOk]
  · simp [factory_create_all, factory_create_all_go, factory_create_one,
      factory_create_composite, factory_composite_types,
      factory_registry_types, instFail]
  · simp [factory_create_all, factory_create_all_go, factory_create_one,
      factory_create_composite, factory_composite_types,
      factory_registry_types]

/-- After the scenario's first call the store holds the single timestamp. -/
theorem rlS1_eq (t : Int) (u : String) :
    rlS1 t u = [(("rate_limit:rate_limit", u), StoreVal.timestamps [t])] := by
  simp [rlS1, rlStep, rlP, RateLimitPolicy.pre_execute,
    RateLimitPolicy.namespaceOf, storeGet, storeSet, alistGet, alistSet]

/-- After the second call the store holds both timestamps. -/
theorem rlS2_eq (t : Int) (u : String) :
    rlS2 t u = [(("rate_limit:rate_limit", u), StoreVal.timestamps [t, t + 1])] := by
  have h1 : t + 1 - 60 < t := by omega
  simp [rlS2, rlStep, rlP, RateLimitPolicy.pre_execute,
    RateLimitPolicy.namespaceOf, storeGet, storeSet, alistGet, alistSet,
    rlS1_eq, List.filter, h1]

/-- After the third call the store holds all three timestamps. -/
theorem rlS3_eq (t : Int) (u : String) :
    rlS3 t u
      = [(("rate_limit:rate_limit", u), StoreVal.timestamps [t, t + 1, t + 2])] := by
  have h1 : t + 2 - 60 < t := by omega
  have h2 : t + 2 - 60 < t + 1 := by omega
  simp [rlS3, rlStep, rlP, RateLimitPolicy.pre_execute,
    RateLimitPolicy.namespaceOf, storeGet, storeSet, alistGet, alistSet,
    rlS2_eq, List.filter, h1, h2]

/-- Fourth call within the window: the full outcome — denial with the
configured limit and window, `remaining = 0`, `reset_at` = earliest
surviving timestamp + window, store and context untouched. -/
theorem rl4_eq (t : Int) (u : String) :
    rlStep (t + 3) (rlS3 t u) u
      = (PolicyResult.deny "rate_limit"
          ("Rate limit exceeded: " ++ toString (3 : Nat) ++
            " requests per " ++ toString (60 : Int) ++ "s")
          [("remaining", MetaVal.mint 0),
           ("reset_at", MetaVal.mint (t + 60))],
         rlS3 t u, { user_id := u }) := by
  have hp1 : t + 3 - 60 < t := by omega
  have hp2 : t + 3 - 60 < t + 1 := by omega
  have hp3 : t + 3 - 60 < t + 2 := by omega
  simp [rlStep, rlP, RateLimitPolicy.pre_execute,
    RateLimitPolicy.namespaceOf, storeGet, storeSet, alistGet, alistSet,
    rlS3_eq, List.filter, hp1, hp2, hp3]

/-- Call 61 seconds after the denied call: every stored timestamp has
fallen out of the window, so the call allows again. -/
theorem rl5_allow (t : Int) (u : String) :
    (rlStep (t + 64) (rlS3 t u) u).1 = PolicyResult.allow "rate_limit" := by
  have hq1 : decide (t + 64 - 60 < t) = false := decide_eq_false (by omega)
  have hq2 : decide (t + 64 - 60 < t + 1) = false := decide_eq_false (by omega)
  have hq3 : decide (t + 64 - 60 < t + 2) = false := decide_eq_false (by omega)
  rw [rlS3_eq]
  simp [rlStep, rlP, RateLimitPolicy.pre_execute,
    RateLimitPolicy.namespaceOf, storeGet, storeSet, alistGet, alistSet,
    List.filter, hq1, hq2, hq3]

/-- A different user's first call against the exhausted store: the other
user's timestamps are not consulted, the call allows with
`remaining = 2`. -/
theorem rlb_eq (t : Int) (u u2 : String) (h : u ≠ u2) :
    rlStep (t + 3) (rlS3 t u) u2
      = (PolicyResult.allow "rate_limit",
         [(("rate_limit:rate_limit", u), StoreVal.timestamps [t, t + 1, t + 2]),
          (("rate_limit:rate_limit", u2), StoreVal.timestamps [t + 3])],
         { user_id := u2,
           metadata := [("rate_limit_remaining", MetaVal.mint 2)] }) := by
  have hbu : ((("rate_limit:rate_limit", u) : String × String)
      == ("rate_limit:rate_limit", u2)) = false := by
    rw [beq_eq_false_iff_ne]
    simp [h]
  simp [rlStep, rlP, RateLimitPolicy.pre_execute,
    RateLimitPolicy.namespaceOf, storeGet, storeSet, alistGet, alistSet,
    rlS3_eq, List.filter, hbu]

/-- First call of the scenario allows. -/
theorem rl1_allow (t : Int) (u : String) :
    (rlStep t [] u).1 = PolicyResult.allow "rate_limit" := by
  simp [rlStep, rlP, RateLimitPolicy.pre_execute,
    RateLimitPolicy.namespaceOf, storeGet, storeSet, alistGet, alistSet]

/-- Second call of the scenario allows. -/
theorem rl2_allow (t : Int) (u : String) :
    (rlStep (t + 1) (rlS1 t u) u).1 = PolicyResult.allow "rate_limit" := by
  have h1 : t + 1 - 60 < t := by omega
  simp [rlStep, rlP, RateLimitPolicy.pre_execute,
    RateLimitPolicy.namespaceOf, storeGet, storeSet, alistGet, alistSet,
    rlS1_eq, List.filter, h1]

/-- Third call of the scenario allows. -/
theorem rl3_allow (t : Int) (u : String) :
    (rlStep (t + 2) (rlS2 t u) u).1 = PolicyResult.allow "rate_limit" := by
  have h1 : t + 2 - 60 < t := by omega
  have h2 : t + 2 - 60 < t + 1 := by omega
  simp [rlStep, rlP, RateLimitPolicy.pre_execute,
    RateLimitPolicy.namespaceOf, storeGet, storeSet, alistGet, alistSet,
    rlS2_eq, List.filter, h1, h2]

/-- C7: with `max_requests = 3` and `window_seconds = 60`, three
consecutive calls by user `u` (clock `t, t+1, t+2`) allow; the fourth call
within the window (clock `t+3`) denies with the configured limit and
window in its reason and metadata `remaining = 0`,
`reset_at = earliest surviving timestamp + window = t + 60`, leaving the
store unchanged; after advancing the clock by 61 seconds the next call by
`u` allows again; a first call by a different user `u2` at `t+3` is
unaffected by `u`'s exhaustion (it allows, with `remaining = 2` written to
its context metadata). -/
theorem rate_limit_scenario (t : Int) (u u2 : String) (h : u ≠ u2) :
    ((rlStep t [] u).1 = PolicyResult.allow "rate_limit") ∧
    ((rlStep (t + 1) (rlS1 t u) u).1 = PolicyResult.allow "rate_limit") ∧
    ((rlStep (t + 2) (rlS2 t u) u).1 = PolicyResult.allow "rate_limit") ∧
    ((rlStep (t + 3) (rlS3 t u) u).1.allowed = false) ∧
    ((rlStep (t + 3) (rlS3 t u) u).1.reason
      = "Rate limit exceeded: 3 requests per 60s") ∧
    ((rlStep (t + 3) (rlS3 t u) u).1.metadata
      = [("remaining", MetaVal.mint 0), ("reset_at", MetaVal.mint (t + 60))]) ∧
    (rlS4 t u = rlS3 t u) ∧
    ((rlStep (t + 64) (rlS4 t u) u).1 = PolicyResult.allow "rate_limit") ∧
    ((rlStep (t + 3) (rlS4 t u) u2).1 = PolicyResult.allow "rate_limit") ∧
    ((rlStep (t + 3) (rlS4 t u) u2).2.2.metadata
      = [("rate_limit_remaining", MetaVal.mint 2)]) := by
  have h4 : rlS4 t u = rlS3 t u := by
    rw [rlS4, rl4_eq]
  refine ⟨rl1_allow t u, rl2_allow t u, rl3_allow t u, ?_, ?_, ?_, h4, ?_, ?_, ?_⟩
  · rw [rl4_eq]
    rfl
  · rw [rl4_eq]
    rfl
  · rw [rl4_eq]
    rfl
  · rw [h4]
    exact rl5_allow t u
  · rw [h4, rlb_eq t u u2 h]
  · rw [h4, rlb_eq t u u2 h]

/-- C7 witness: the scenario at clock 0 for users "alice" and "bob". -/
theorem rate_limit_scenario_witness :
    ((rlStep 3 (rlS3 0 "alice") "alice").1.allowed = false) ∧
    ((rlStep 3 (rlS3 0 "alice") "alice").1.reason
      = "Rate limit exceeded: 3 requests per 60s") ∧
    ((rlStep 64 (rlS4 0 "alice") "alice").1 = PolicyResult.allow "rate_limit") ∧
    ((rlStep 3 (rlS4 0 "alice") "bob").1 = PolicyResult.allow "rate_limit") :=
  ⟨(rate_limit_scenario 0 "alice" "bob" (by decide)).2.2.2.1,
   (rate_limit_scenario 0 "alice" "bob" (by decide)).2.2.2.2.1,
   (rate_limit_scenario 0 "alice" "bob" (by decide)).2.2.2.2.2.2.2.1,
   (rate_limit_scenario 0 "alice" "bob" (by decide)).2.2.2.2.2.2.2.2.1⟩

/-- A probe for a non-denying index allows under its own name. -/
theorem probeResult_ne (k i : Nat) (h : i ≠ k) :
    probeResult k i = PolicyResult.allow ("policy_" ++ toString i) := by
  simp [probeResult, h]

/-- The denying probe's result: a denial naming the probe. -/
theorem probeResult_self (k : Nat) :
    probeResult k k
      = PolicyResult.deny ("policy_" ++ toString k) "denied by probe" := by
  simp [probeResult]

/-- Running the pre-chain over probes none of which denies: every probe is
invoked exactly once (each counter gains the index's multiplicity) and the
chain returns the synthetic `PolicyResult.allow()` with empty name. -/
theorem check_pre_probes_allow (l : List Nat) (k : Nat) :
    ∀ (ctx : RequestContext) (c : Nat → Nat), k ∉ l →
      check_pre_exec_policies (l.map (probeDenyAt k)) ctx c
        = (PolicyResult.allow, ctx, fun j => c j + l.count j) := by
  induction l with
  | nil =>
    intro ctx c _
    have hc : (fun j => c j + List.count j []) = c := by
      funext j
      simp
    rw [List.map_nil, check_pre_exec_policies, hc]
  | cons i l ih =>
    intro ctx c hk
    have hik : i ≠ k := fun he => hk (he ▸ List.mem_cons_self i l)
    have hkl : k ∉ l := fun hm => hk (List.mem_cons_of_mem i hm)
    have hcount : (fun j => bump i c j + l.count j)
        = (fun j => c j + List.count j (i :: l)) := by
      funext j
      by_cases hj : j = i
      · subst hj
        simp [bump, List.count_cons]
        omega
      · simp [bump, hj, List.count_cons]
    simp only [List.map_cons, check_pre_exec_policies, probeDenyAt,
      countingPolicy, probeResult_ne k i hik, PolicyResult.allow, if_true]
    rw [ih ctx (bump i c) hkl, hcount]
    rfl

/-- Running the pre-chain over probes whose first denier is `k`: the chain
stops at `k` with its denial, the context untouched; the probes before and
including `k` are the only ones invoked. -/
theorem check_pre_probes_deny (l1 : List Nat) (k : Nat) (l2 : List Nat) :
    ∀ (ctx : RequestContext) (c : Nat → Nat), k ∉ l1 →
      check_pre_exec_policies ((l1 ++ k :: l2).map (probeDenyAt k)) ctx c
        = (probeResult k k, ctx, fun j => c j + (l1 ++ [k]).count j) := by
  induction l1 with
  | nil =>
    intro ctx c _
    have hres : (probeResult k k).allowed = false := by
      simp [probeResult, PolicyResult.deny]
    have hcount : bump k c = (fun j => c j + List.count j ([] ++ [k])) := by
      funext j
      by_cases hj : j = k
      · subst hj
        simp [bump]
      · simp [bump, hj, List.count_singleton', hj]
    simp only [List.nil_append, List.map_cons, check_pre_exec_policies,
      probeDenyAt, countingPolicy, hres, Bool.false_eq_true, if_false]
    rw [hcount]
    simp
  | cons i l1 ih =>
    intro ctx c hk
    have hik : i ≠ k := fun he => hk (he ▸ List.mem_cons_self i l1)
    have hkl : k ∉ l1 := fun hm => hk (List.mem_cons_of_mem i hm)
    have hcount : (fun j => bump i c j + (l1 ++ [k]).count j)
        = (fun j => c j + List.count j (i :: l1 ++ [k])) := by
      funext j
      by_cases hj : j = i
      · subst hj
        simp [bump, List.count_cons]
        omega
      · have hij : i ≠ j := fun he => hj he.symm
        simp [List.cons_append, List.count_cons, bump, hj, hij]
    simp only [List.cons_append, List.map_cons, check_pre_exec_policies,
      probeDenyAt, countingPolicy, probeResult_ne k i hik,
      PolicyResult.allow, if_true]
    simp only [List.append_eq]
    rw [ih ctx (bump i c) hkl]
    have := congrArg (fun f => (probeResult k k, ctx, f)) hcount
    simpa using this

/-- Post-phase version of `check_pre_probes_allow` (probes behave the same
in both phases). -/
theorem check_post_probes_allow (l : List Nat) (k : Nat) :
    ∀ (ctx : RequestContext) (c : Nat → Nat), k ∉ l →
      check_post_exec_policies (l.map (probeDenyAt k)) ctx c
        = (PolicyResult.allow, ctx, fun j => c j + l.count j) := by
  induction l with
  | nil =>
    intro ctx c _
    have hc : (fun j => c j + List.count j []) = c := by
      funext j
      simp
    rw [List.map_nil, check_post_exec_policies, hc]
  | cons i l ih =>
    intro ctx c hk
    have hik : i ≠ k := fun he => hk (he ▸ List.mem_cons_self i l)
    have hkl : k ∉ l := fun hm => hk (List.mem_cons_of_mem i hm)
    have hcount : (fun j => bump i c j + l.count j)
        = (fun j => c j + List.count j (i :: l)) := by
      funext j
      by_cases hj : j = i
      · subst hj
        simp [bump, List.count_cons]
        omega
      · simp [bump, hj, List.count_cons]
    simp only [List.map_cons, check_post_exec_policies, probeDenyAt,
      countingPolicy, probeResult_ne k i hik, PolicyResult.allow, if_true]
    rw [ih ctx (bump i c) hkl, hcount]
    rfl

/-- Post-phase version of `check_pre_probes_deny`. -/
theorem check_post_probes_deny (l1 : List Nat) (k : Nat) (l2 : List Nat) :
    ∀ (ctx : RequestContext) (c : Nat → Nat), k ∉ l1 →
      check_post_exec_policies ((l1 ++ k :: l2).map (probeDenyAt k)) ctx c
        = (probeResult k k, ctx, fun j => c j + (l1 ++ [k]).count j) := by
  induction l1 with
  | nil =>
    intro ctx c _
    have hres : (probeResult k k).allowed = false := by
      simp [probeResult, PolicyResult.deny]
    have hcount : bump k c = (fun j => c j + List.count j ([] ++ [k])) := by
      funext j
      by_cases hj : j = k
      · subst hj
        simp [bump]
      · simp [bump, hj, List.count_singleton', hj]
    simp only [List.nil_append, List.map_cons, check_post_exec_policies,
      probeDenyAt, countingPolicy, hres, Bool.false_eq_true, if_false]
    rw [hcount]
    simp
  | cons i l1 ih =>
    intro ctx c hk
    have hik : i ≠ k := fun he => hk (he ▸ List.mem_cons_self i l1)
    have hkl : k ∉ l1 := fun hm => hk (List.mem_cons_of_mem i hm)
    have hcount : (fun j => bump i c j + (l1 ++ [k]).count j)
        = (fun j => c j + List.count j (i :: l1 ++ [k])) := by
      funext j
      by_cases hj : j = i
      · subst hj
        simp [bump, List.count_cons]
        omega
      · have hij : i ≠ j := fun he => hj he.symm
        simp [List.cons_append, List.count_cons, bump, hj, hij]
    simp only [List.cons_append, List.map_cons, check_post_exec_policies,
      probeDenyAt, countingPolicy, probeResult_ne k i hik,
      PolicyResult.allow, if_true]
    simp only [List.append_eq]
    rw [ih ctx (bump i c) hkl]
    have := congrArg (fun f => (probeResult k k, ctx, f)) hcount
    simpa using this

/-- Splitting `range n` at a position `k < n`. -/
theorem range_split_at (n k : Nat) (h : k < n) :
    List.range n = List.range k ++ k :: List.range' (k + 1) (n - k - 1) := by
  have h2 : n - k + k = n := by omega
  have h3 : n - k = (n - k - 1) + 1 := by omega
  calc List.range n = List.range' 0 n := List.range_eq_range' n
    _ = List.range' 0 (n - k + k) := by rw [h2]
    _ = List.range' 0 k ++ List.range' (0 + 1 * k) (n - k) :=
      (List.range'_append 0 k (n - k) 1).symm
    _ = List.range' 0 k ++ List.range' k (n - k) := by simp
    _ = List.range k ++ List.range' k ((n - k - 1) + 1) := by
      rw [← List.range_eq_range' k, ← h3]
    _ = List.range k ++ k :: List.range' (k + 1) (n - k - 1) := by
      rw [List.range'_succ k (n - k - 1) 1]

/-- C1: over a chain of `n` instrumented policies in which member `k`
denies and all others allow, `check_pre_exec_policies` returns member
`k`'s denial; members after `k` are never invoked (their counters are
untouched) while members up to and including `k` are invoked exactly once;
when no member denies the chain returns the synthetic
`PolicyResult.allow()` with empty `policy_name`; `check_post_exec_policies`
behaves the same. -/
theorem manager_chain_short_circuit (n k : Nat) (ctx : RequestContext)
    (c : Nat → Nat) (h : k < n) :
    (check_pre_exec_policies (probeChain n k) ctx c).1 = probeResult k k ∧
    (probeResult k k).allowed = false ∧
    (probeResult k k).policy_name = "policy_" ++ toString k ∧
    (check_pre_exec_policies (probeChain n k) ctx c).2.1 = ctx ∧
    (∀ j, k < j → (check_pre_exec_policies (probeChain n k) ctx c).2.2 j = c j) ∧
    (∀ j, j ≤ k →
      (check_pre_exec_policies (probeChain n k) ctx c).2.2 j = c j + 1) ∧
    (check_pre_exec_policies (probeChain n n) ctx c).1 = PolicyResult.allow "" ∧
    (check_post_exec_policies (probeChain n k) ctx c).1 = probeResult k k ∧
    (∀ j, k < j →
      (check_post_exec_policies (probeChain n k) ctx c).2.2 j = c j) ∧
    (check_post_exec_policies (probeChain n n) ctx c).1
      = PolicyResult.allow "" := by
  have hknot : k ∉ List.range k := by simp
  have hsplit : probeChain n k
      = (List.range k ++ k :: List.range' (k + 1) (n - k - 1)).map
          (probeDenyAt k) := by
    rw [probeChain, range_split_at n k h]
  have hrunpre : check_pre_exec_policies (probeChain n k) ctx c
      = (probeResult k k, ctx,
          fun j => c j + (List.range k ++ [k]).count j) := by
    rw [hsplit]
    exact check_pre_probes_deny (List.range k) k
      (List.range' (k + 1) (n - k - 1)) ctx c hknot
  have hrunpost : check_post_exec_policies (probeChain n k) ctx c
      = (probeResult k k, ctx,
          fun j => c j + (List.range k ++ [k]).count j) := by
    rw [hsplit]
    exact check_post_probes_deny (List.range k) k
      (List.range' (k + 1) (n - k - 1)) ctx c hknot
  have hcount_hi : ∀ j, k < j → (List.range k ++ [k]).count j = 0 := by
    intro j hj
    rw [List.count_eq_zero]
    simp only [List.mem_append, List.mem_range, List.mem_singleton]
    rintro (hlt | rfl)
    · omega
    · omega
  have hcount_le : ∀ j, j ≤ k → (List.range k ++ [k]).count j = 1 := by
    intro j hj
    rw [List.count_append]
    rcases Nat.lt_or_ge j k with hlt | hge
    · have h1 : (List.range k).count j = 1 :=
        List.count_eq_one_of_mem (List.nodup_range k) (List.mem_range.mpr hlt)
      have h2 : List.count j [k] = 0 := by
        rw [List.count_eq_zero]
        simp
        omega
      omega
    · have hjk : j = k := by omega
      subst hjk
      have h1 : (List.range j).count j = 0 := by
        rw [List.count_eq_zero]
        simp
      have h2 : List.count j [j] = 1 := by simp
      omega
  have hnnot : (n : Nat) ∉ List.range n := by simp
  have hallowpre : check_pre_exec_policies (probeChain n n) ctx c
      = (PolicyResult.allow, ctx, fun j => c j + (List.range n).count j) := by
    rw [probeChain]
    exact check_pre_probes_allow (List.range n) n ctx c hnnot
  have hallowpost : check_post_exec_policies (probeChain n n) ctx c
      = (PolicyResult.allow, ctx, fun j => c j + (List.range n).count j) := by
    rw [probeChain]
    exact check_post_probes_allow (List.range n) n ctx c hnnot
  refine ⟨?_, ?_, ?_, ?_, ?_, ?_, ?_, ?_, ?_, ?_⟩
  · rw [hrunpre]
  · simp [probeResult_self, PolicyResult.deny]
  · simp [probeResult_self, PolicyResult.deny]
  · rw [hrunpre]
  · intro j hj
    rw [hrunpre]
    show c j + (List.range k ++ [k]).count j = c j
    rw [hcount_hi j hj]
    omega
  · intro j hj
    rw [hrunpre]
    show c j + (List.range k ++ [k]).count j = c j + 1
    rw [hcount_le j hj]
  · rw [hallowpre]
  · rw [hrunpost]
  · intro j hj
    rw [hrunpost]
    show c j + (List.range k ++ [k]).count j = c j
    rw [hcount_hi j hj]
    omega
  · rw [hallowpost]

/-- C1 witness: a chain of three probes with the denier at index 1 — the
denial is returned, the probe at index 2 is never invoked, the probe at
index 0 ran once; the all-allow chain returns the empty-named allow. -/
theorem manager_chain_short_circuit_witness :
    (check_pre_exec_policies (probeChain 3 1) ctx0 zeroCounts).1
      = probeResult 1 1 ∧
    (check_pre_exec_policies (probeChain 3 1) ctx0 zeroCounts).2.2 2
      = zeroCounts 2 ∧
    (check_pre_exec_policies (probeChain 3 1) ctx0 zeroCounts).2.2 0
      = zeroCounts 0 + 1 ∧
    (check_pre_exec_policies (probeChain 3 3) ctx0 zeroCounts).1
      = PolicyResult.allow "" :=
  ⟨(manager_chain_short_circuit 3 1 ctx0 zeroCounts (by decide)).1,
   (manager_chain_short_circuit 3 1 ctx0 zeroCounts
      (by decide)).2.2.2.2.1 2 (by decide),
   (manager_chain_short_circuit 3 1 ctx0 zeroCounts
      (by decide)).2.2.2.2.2.1 0 (by decide),
   (manager_chain_short_circuit 3 1 ctx0 zeroCounts (by decide)).2.2.2.2.2.2.1⟩

end PMSpec
